import Mathlib

/-!
# Verification of the daily-papers pipeline

Shallow embedding of the paper ingestion and summarization pipeline:
the listing fetcher (`src/list_papers.py` / `list_papers` in
`src/summarisation.py`), the PDF retriever (`download_arxiv`), the
summarizer client's response handling (`summarise_paper`), the
orchestrator (`summarise`), the archive writers (`update_readme` in
`src/summarisation.py` and the merging `update_readme` in
`src/summarise.py`), and the notifier (`src/send_to_telegram.py`).

Strings are modelled as `List Char` (`Str`).  The file system is
modelled as a partial map from paths to file contents.  External
collaborators (HTTP transport, the generative-AI service, Jinja
template rendering, JSON serialization of records) are taken as
oracle parameters, exactly as the spec declares them external; the
code's own control flow, string manipulation and parsing are
translated directly from the Python source.
-/

/-- Strings as lists of characters (Python `str`). -/
abbrev Str := List Char

/-- Decidable equality for `Except` values, so that concrete runs can
be checked by `decide`. -/
instance exceptDecEq {ε α : Type} [DecidableEq ε] [DecidableEq α] :
    DecidableEq (Except ε α) := fun a b =>
  match a, b with
  | .ok x, .ok y =>
    if h : x = y then isTrue (by rw [h]) else isFalse (by simp [h])
  | .error x, .error y =>
    if h : x = y then isTrue (by rw [h]) else isFalse (by simp [h])
  | .ok _, .error _ => isFalse (by simp)
  | .error _, .ok _ => isFalse (by simp)

/-! ## Generic string helpers modelling Python primitives -/

/-- Python whitespace as stripped by `str.strip()` (ASCII subset). -/
def isPyWhitespace (c : Char) : Bool :=
  c = ' ' || c = '\t' || c = '\n' || c = '\r' || c = '\x0b' || c = '\x0c'

/-- Python `str.strip()`: drop leading and trailing whitespace. -/
def pyStrip (s : Str) : Str :=
  ((s.dropWhile isPyWhitespace).reverse.dropWhile isPyWhitespace).reverse

/-- Python `str.split("\n")`: split on each newline, keeping empty pieces. -/
def splitNl : Str → List Str
  | [] => [[]]
  | c :: rest =>
    if c = '\n' then [] :: splitNl rest
    else
      match splitNl rest with
      | [] => [[c]]
      | p :: ps => (c :: p) :: ps

/-- Python `" ".join(pieces)`. -/
def joinSpace : List Str → Str
  | [] => []
  | [x] => x
  | x :: y :: ys => x ++ ' ' :: joinSpace (y :: ys)

/-- Boolean prefix test on character lists. -/
def isPref : Str → Str → Bool
  | [], _ => true
  | _ :: _, [] => false
  | a :: as, b :: bs => a = b && isPref as bs

/-! ## Listing fetcher (`list_papers` in `src/summarisation.py`,
`main` in `src/list_papers.py`; the two loops are identical) -/

/-- The `<a class="line-clamp-3">` title anchor of a listing block:
its text and its (possibly absent) `href` attribute. -/
structure TitleTag where
  text : Str
  href : Option Str
deriving DecidableEq

/-- An `<li>` sub-element of a listing block; `attrTitle` models
`li.get("title")` (an absent attribute gives `none`). -/
structure LiTag where
  attrTitle : Option Str
deriving DecidableEq

/-- A `<div class="w-full">` listing block: its (possibly absent)
title anchor and its list of `<li>` sub-elements. -/
structure Block where
  titleTag : Option TitleTag
  lis : List LiTag
deriving DecidableEq

/-- A paper record (Python dict).  `list_papers` creates it with the
four keys `title`, `authors`, `arxiv_id`, `link`; the `category` and
`summary` keys are absent (`none`) until `paper.update(res)` adds
them in the orchestrator. -/
structure PaperR where
  title : Str
  authors : Str
  arxiv_id : Str
  link : Str
  category : Option Str
  summary : Option Str
deriving DecidableEq

/-- Title normalization from the source:
`title = title_tag.text.strip()` followed by
`" ".join([x.strip() for x in title.split("\n")])`. -/
def normalizeTitle (t : Str) : Str :=
  joinSpace ((splitNl (pyStrip t)).map pyStrip)

/-- Greedy match of the regex tail `\d+\.\d+` at the start of `s`
(the text right after a literal `/papers/`): a maximal nonempty
ASCII-digit run, a dot, a maximal nonempty digit run.  Backtracking
inside `\d+\.\d+` cannot produce any other match, so this is the
exact first-position semantics of Python `re`. -/
def matchIdAt (s : Str) : Option Str :=
  let d1 := s.takeWhile Char.isDigit
  let r1 := s.dropWhile Char.isDigit
  if d1 = [] then none
  else
    match r1 with
    | [] => none
    | c :: r2 =>
      if c = '.' then
        let d2 := r2.takeWhile Char.isDigit
        if d2 = [] then none else some (d1 ++ '.' :: d2)
      else none

/-- Model of `re.search(r"/papers/(\d+\.\d+)", link)` returning the
captured group: scan left to right for the first position where the
whole pattern matches. -/
def extractArxivId : Str → Option Str
  | [] => none
  | c :: rest =>
    if isPref ("/papers/".toList) (c :: rest) then
      match matchIdAt (List.drop 7 rest) with
      | some found => some found
      | none => extractArxivId rest
    else extractArxivId rest

/-- `", ".join(authors)` where only truthy (nonempty) `title`
attributes are collected, as in the Python loop over `li` tags. -/
def joinAuthors (lis : List LiTag) : Str :=
  List.intercalate (", ".toList)
    (lis.filterMap fun li =>
      match li.attrTitle with
      | some a => if a = [] then none else some a
      | none => none)

/-- Outcome of one iteration of the listing loop on one block. -/
inductive BlockRes where
  | raise (msg : String)
  | skip
  | emit (p : PaperR)
deriving DecidableEq

/-- One iteration of the `for paper_div in soup.find_all(...)` loop:
missing title anchor → log and `continue`; `title_tag["href"]` on a
missing attribute → `KeyError` (uncaught, aborts the fetch); no regex
match → log and `continue`; duplicate identifier → log and
`continue`; otherwise build and append the record. -/
def blockStep (seen : List Str) (b : Block) : BlockRes :=
  match b.titleTag with
  | none => .skip
  | some tag =>
    let title := normalizeTitle tag.text
    match tag.href with
    | none => .raise "KeyError: href"
    | some link =>
      match extractArxivId link with
      | none => .skip
      | some id =>
        if id ∈ seen then .skip
        else .emit
          { title := title
            authors := joinAuthors b.lis
            arxiv_id := id
            link := "https://arxiv.org/abs/".toList ++ id
            category := none
            summary := none }

/-- The listing loop, threading the `seen_ids` set (modelled as the
list of identifiers added so far). -/
def listPapersAux (seen : List Str) : List Block → Except String (List PaperR)
  | [] => .ok []
  | b :: bs =>
    match blockStep seen b with
    | .raise e => .error e
    | .skip => listPapersAux seen bs
    | .emit p => (listPapersAux (p.arxiv_id :: seen) bs).map (p :: ·)

/-- `list_papers`: parse the fetched listing (already split into
blocks) into the ordered list of paper records. -/
def list_papers (blocks : List Block) : Except String (List PaperR) :=
  listPapersAux [] blocks

/-! ## Summarization orchestrator (`summarise` in `src/summarisation.py`) -/

/-- The two-field result merged into a record by `paper.update(res)`
when the per-paper try block succeeds. -/
structure SummRes where
  category : Str
  summary : Str
deriving DecidableEq

/-- Observable side effects of the per-paper loop body:
`time.sleep(30)` and `logger.warning(...)` on the except path. -/
inductive Ev where
  | sleep
  | warn (title : Str) (msg : String)
deriving DecidableEq

/-- `paper.update(res)`: add the `category` and `summary` keys. -/
def applySummary (p : PaperR) (r : SummRes) : PaperR :=
  { p with category := some r.category, summary := some r.summary }

/-- One iteration of the `for paper in papers` loop of `summarise`.
`step` is the fallible prefix of the try block — `download_arxiv`,
the prompt render and the `summarise_paper` service call — returning
the two-field result or the raised exception's message.  On success
the record is updated and `time.sleep(30)` runs (the sleep is the
last statement inside the `try`); on an exception the handler logs a
warning with the paper's title and the loop continues. -/
def summariseOne (step : PaperR → Except String SummRes) (p : PaperR) :
    PaperR × List Ev :=
  match step p with
  | .ok r => (applySummary p r, [.sleep])
  | .error e => (p, [.warn p.title e])

/-- `summarise`: process every record in order, returning the final
record sequence (the in-place mutated `papers` list) and the emitted
effect trace. -/
def summarise (step : PaperR → Except String SummRes) :
    List PaperR → List PaperR × List Ev
  | [] => ([], [])
  | p :: ps =>
    let r := summariseOne step p
    let rest := summarise step ps
    (r.1 :: rest.1, r.2 ++ rest.2)

/-! ## File system model -/

/-- A file system: paths to contents. -/
abbrev FS := Str → Option Str

/-- `open(path, "w")` / `open(path, "wb")` followed by a full write. -/
def writeFS (fs : FS) (path content : Str) : FS :=
  fun q => if q = path then some content else fs q

/-! ## PDF retriever (`download_arxiv` in `src/summarisation.py`) -/

/-- `download_arxiv`: GET the document (the transport's response is
the `status`/`content` pair); on HTTP 200 write the body to
`save_path` and return; otherwise raise `ValueError` without touching
the file system.  The result pairs the final file system with the
raised message (`none` = returned normally). -/
def download_arxiv (arxiv_id save_path : Str) (status : Nat)
    (content : Str) (fs : FS) : FS × Option Str :=
  if status = 200 then (writeFS fs save_path content, none)
  else (fs, some ("Failed to download PDF for ".toList ++ arxiv_id))

/-! ## Archive writer (`update_readme` in `src/summarisation.py`) -/

/-- Python `str.split(sep)` restricted to a single-character
separator, keeping empty pieces (used for `today_date.split("-")`). -/
def splitOnChar (sep : Char) : Str → List Str
  | [] => [[]]
  | c :: rest =>
    if c = sep then [] :: splitOnChar sep rest
    else
      match splitOnChar sep rest with
      | [] => [[c]]
      | p :: ps => (c :: p) :: ps

/-- Path of the output template read by `update_readme`. -/
def outputTemplatePath : Str := "templates/output_template.md".toList

/-- Path of the digest document. -/
def readmePath : Str := "README.md".toList

/-- `archive/{year}/{month}/{date}` (no extension). -/
def archiveStem (year month date : Str) : Str :=
  "archive/".toList ++ year ++ "/".toList ++ month ++ "/".toList ++ date

/-- `update_readme` of `src/summarisation.py`: read the output
template, render it (Jinja rendering is the external pure function
`render` of template text, date and records), overwrite `README.md`,
then unpack `year, month, _ = today_date.split("-")` (a `ValueError`
if the date does not have exactly three dash-separated parts — by
then `README.md` is already written), create the archive directory
(no-op in the path-map model) and write the dated `.md` and `.json`
archive files, the latter serialized by the external pure function
`dumpJson`.  Result: final file system plus the raised message, if
any. -/
def update_readme (render : Str → Str → List PaperR → Str)
    (dumpJson : List PaperR → Str) (today_date : Str)
    (papers : List PaperR) (fs : FS) : FS × Option String :=
  match fs outputTemplatePath with
  | none => (fs, some "FileNotFoundError: templates/output_template.md")
  | some templateString =>
    let output := render templateString today_date papers
    let fs1 := writeFS fs readmePath output
    match splitOnChar '-' today_date with
    | [year, month, _day] =>
      let fs2 := writeFS fs1 (archiveStem year month today_date ++ ".md".toList) output
      let fs3 := writeFS fs2 (archiveStem year month today_date ++ ".json".toList)
        (dumpJson papers)
      (fs3, none)
    | _ => (fs1, some "ValueError: unpacking today_date.split")

/-! ## Summarizer client response handling
(`summarise_paper` in `src/summarisation.py` and `src/summarise.py`;
the `try: return json.loads(response.text) except: ...` tail) -/

/-- JSON values as produced by Python `json.loads`. -/
inductive Json where
  | null
  | bool (b : Bool)
  | num (n : Int)
  | str (s : Str)
  | arr (xs : List Json)
  | obj (fields : List (Str × Json))

/-- JSON insignificant whitespace (Python `json` skips exactly
space, tab, newline, carriage return). -/
def isJsonWs (c : Char) : Bool :=
  c = ' ' || c = '\t' || c = '\n' || c = '\r'

/-- Parse a JSON string body after the opening quote: plain
characters up to the closing quote.  Escape sequences are outside the
modelled fragment (a backslash fails the parse). -/
def parseStringBody : Str → Option (Str × Str)
  | [] => none
  | c :: rest =>
    if c = '"' then some ([], rest)
    else if c = '\\' then none
    else
      match parseStringBody rest with
      | some (s, r) => some (c :: s, r)
      | none => none

/-- Parse an optionally signed decimal integer. -/
def parseIntLit (s : Str) : Option (Int × Str) :=
  let core : Str → Option (Nat × Str) := fun t =>
    let ds := t.takeWhile Char.isDigit
    if ds = [] then none
    else some (ds.foldl (fun acc c => 10 * acc + (c.toNat - 48)) 0,
               t.dropWhile Char.isDigit)
  match s with
  | '-' :: rest =>
    match core rest with
    | some (n, r) => some (-(n : Int), r)
    | none => none
  | _ =>
    match core s with
    | some (n, r) => some ((n : Int), r)
    | none => none

mutual

/-- Recursive-descent JSON value parser (fuel-indexed so that all
definitions stay structural and evaluable). -/
def parseValue : Nat → Str → Option (Json × Str)
  | 0, _ => none
  | fuel + 1, s =>
      let t := s.dropWhile isJsonWs
      match t with
      | '"' :: rest =>
        match parseStringBody rest with
        | some (str, r) => some (.str str, r)
        | none => none
      | '[' :: rest =>
        let r1 := rest.dropWhile isJsonWs
        match r1 with
        | ']' :: r2 => some (.arr [], r2)
        | _ =>
          match parseArrItems fuel r1 with
          | some (xs, r2) => some (.arr xs, r2)
          | none => none
      | '{' :: rest =>
        let r1 := rest.dropWhile isJsonWs
        match r1 with
        | '}' :: r2 => some (.obj [], r2)
        | _ =>
          match parseObjItems fuel r1 with
          | some (fs, r2) => some (.obj fs, r2)
          | none => none
      | 't' :: 'r' :: 'u' :: 'e' :: rest => some (.bool true, rest)
      | 'f' :: 'a' :: 'l' :: 's' :: 'e' :: rest => some (.bool false, rest)
      | 'n' :: 'u' :: 'l' :: 'l' :: rest => some (.null, rest)
      | _ =>
        match parseIntLit t with
        | some (n, r) => some (.num n, r)
        | none => none

/-- One-or-more comma-separated array items. -/
def parseArrItems : Nat → Str → Option (List Json × Str)
  | 0, _ => none
  | fuel + 1, s =>
    match parseValue fuel s with
    | none => none
    | some (v, r) =>
      let r1 := r.dropWhile isJsonWs
      match r1 with
      | ',' :: r2 =>
        match parseArrItems fuel (r2.dropWhile isJsonWs) with
        | some (xs, r3) => some (v :: xs, r3)
        | none => none
      | ']' :: r2 => some ([v], r2)
      | _ => none

/-- One-or-more comma-separated `"key": value` object members. -/
def parseObjItems : Nat → Str → Option (List (Str × Json) × Str)
  | 0, _ => none
  | fuel + 1, s =>
    match s with
    | '"' :: rest =>
      match parseStringBody rest with
      | none => none
      | some (k, r) =>
        let r1 := r.dropWhile isJsonWs
        match r1 with
        | ':' :: r2 =>
          match parseValue fuel r2 with
          | none => none
          | some (v, r3) =>
            let r4 := r3.dropWhile isJsonWs
            match r4 with
            | ',' :: r5 =>
              match parseObjItems fuel (r5.dropWhile isJsonWs) with
              | some (fs, r6) => some ((k, v) :: fs, r6)
              | none => none
            | '}' :: r5 => some ([(k, v)], r5)
            | _ => none
        | _ => none
    | _ => none

end

/-- Model of `json.loads`: parse one value and require only
whitespace to remain, else the `JSONDecodeError` (`none`). -/
def jsonLoads (s : Str) : Option Json :=
  match parseValue (s.length + 1) s with
  | some (v, rest) => if rest.dropWhile isJsonWs = [] then some v else none
  | none => none

/-- The fallback dict `{"category": "", "summary": ""}`. -/
def fallbackResult : Json :=
  .obj [("category".toList, .str []), ("summary".toList, .str [])]

/-- The response-handling tail of `summarise_paper`: try
`json.loads(response.text)` and return its result; on a parse
exception log the error and return the fallback dict.  The service
call itself is external; `responseText` is whatever text it
returned. -/
def summarise_paper (responseText : Str) : Json :=
  match jsonLoads responseText with
  | some v => v
  | none => fallbackResult

/-- Modelled from the spec ("a structured result with exactly two
fields: `category` ... and `summary`", the `Response` pydantic
schema): whether a parsed value is the two-field
{category, summary} structure with string fields.  Used only to
compare the spec's claim with what the code returns. -/
def isTwoFieldResponse : Json → Bool
  | .obj [(k1, .str _), (k2, .str _)] =>
    k1 = "category".toList && k2 = "summary".toList
  | _ => false

/-! ## Merging digest writer (`update_readme` in `src/summarise.py`) -/

/-- Python `str.split(sep)[0]` for a nonempty separator: the text
before the first occurrence of `sep` (the whole string when `sep`
does not occur). -/
def splitFirst (sep : Str) : Str → Str
  | [] => []
  | c :: rest =>
    if isPref sep (c :: rest) then []
    else c :: splitFirst sep rest

/-- Python `str.replace(old, new)` (left-to-right, non-overlapping),
fuel-indexed: each step consumes at least one character, so fuel
equal to the string's length suffices.  For `old = ""` this model
returns the string unchanged, which agrees with Python exactly when
`new = ""` (the only way the source calls it with an empty `old`). -/
def replaceAllF (old new : Str) : Nat → Str → Str
  | _, [] => []
  | 0, s => s
  | fuel + 1, c :: rest =>
    if old ≠ [] ∧ isPref old (c :: rest) then
      new ++ replaceAllF old new fuel (rest.drop (old.length - 1))
    else c :: replaceAllF old new fuel rest

/-- Python `str.replace(old, new)`. -/
def replaceAll (old new s : Str) : Str :=
  replaceAllF old new s.length s

/-- A record consumed by the merging writer: `{**paper, **summary}`
with all five displayed keys present. -/
structure PaperRow where
  title : Str
  authors : Str
  link : Str
  category : Str
  summary : Str
deriving DecidableEq

/-- One markdown table row:
`f"| {title} (Read more on [arXiv]({link})| {authors} | {category} | {summary} |\n"`
with the summary's newlines replaced by spaces first. -/
def renderRow (r : PaperRow) : Str :=
  "| ".toList ++ r.title ++ " (Read more on [arXiv](".toList ++ r.link
    ++ ")| ".toList ++ r.authors ++ " | ".toList ++ r.category
    ++ " | ".toList ++ replaceAll ['\n'] [' '] r.summary ++ " |\n".toList

/-- The boundary marker the writer searches for. -/
def papersMarker : Str := "## Papers for".toList

/-- Today's freshly rendered entry: heading, table header, rows. -/
def newContent (date_str : Str) (result : List PaperRow) : Str :=
  "\n\n## Papers for ".toList ++ date_str
    ++ "\n\n| Title | Authors | Category | Summary |\n| ----- | ------- | -------- | ------- |\n".toList
    ++ (result.map renderRow).flatten

/-- The refreshed introductory section: the intro template with
`{DATE}` replaced by the doubled-dash date and the badge spacing. -/
def introFor (intro_template date_str : Str) : Str :=
  replaceAll "\x7bDATE\x7d".toList
    (replaceAll ['-'] ('-' :: ['-']) date_str ++ " \n \n".toList)
    intro_template

/-- The README-merging computation of `update_readme` in
`src/summarise.py` (lines 106–124): take everything before the first
`"## Papers for"` as the front section, delete every occurrence of
that front text from the existing README, and emit
`intro + new_content + "\n\n" + remainder`.  File reads/writes around
it are the ambient file system; the merge itself is this pure
function of the intro template, the existing README text, the date
and the records. -/
def update_readme_merge (intro_template existing date_str : Str)
    (result : List PaperRow) : Str :=
  let new_content := newContent date_str result
  let intro_content := introFor intro_template date_str
  let front_content := splitFirst papersMarker existing
  let existing2 := replaceAll front_content [] existing
  intro_content ++ new_content ++ "\n\n".toList ++ existing2

/-! ## Notifier (`main` in `src/send_to_telegram.py`) -/

/-- A record as read back from the day's JSON snapshot; the notifier
reads `title` and `link` by indexing and `summary` via
`paper.get("summary", "None")`, so only `summary` is modelled as
optional. -/
structure TPaper where
  title : Str
  link : Str
  summary : Option Str
deriving DecidableEq

/-- The characters escaped by `escape_markdown`:
`r"_*[]()~`>#+-=|{}.!"`. -/
def mdEscapeChars : Str := "_*[]()~`>#+-=|\x7b\x7d.!".toList

/-- `escape_markdown`: prefix a backslash to every special
character. -/
def escape_markdown (s : Str) : Str :=
  (s.map fun c => if c ∈ mdEscapeChars then ['\\', c] else [c]).flatten

/-- The message text built by `send_text_summary` after escaping:
`f"*{title}*\n[arXiv]({link})\n\n{summary}"`. -/
def send_text_summary (title link summary : Str) : Str :=
  "*".toList ++ escape_markdown title ++ "*\n[arXiv](".toList
    ++ escape_markdown link ++ ")\n\n".toList ++ escape_markdown summary

/-- `main` of `src/send_to_telegram.py`: `snapshot` is the content of
today's `archive/{year}/{month}/{date}.json` (`none` when the file is
absent).  A missing file raises `FileNotFoundError`, which is caught,
logged and the function returns without sending (`ok none`); any
other outcome is uncaught: `papers[0]` on an empty list raises
`IndexError`.  Otherwise the first record's message is built and
sent (`ok (some message)`). -/
def send_to_telegram_main (snapshot : Option (List TPaper)) :
    Except String (Option Str) :=
  match snapshot with
  | none => .ok none
  | some [] => .error "IndexError: list index out of range"
  | some (paper :: _) =>
    .ok (some (send_text_summary paper.title paper.link
      (paper.summary.getD "None".toList)))

/-! ## Auxiliary predicates and concrete instances used by the
statements below -/

/-- Whether a string contains two consecutive space characters (the
normalization property the spec asserts of stored titles). -/
def hasDoubleSpace : Str → Bool
  | a :: b :: rest => (a = ' ' && b = ' ') || hasDoubleSpace (b :: rest)
  | _ => false

/-- Recognize the pacing event. -/
def isSleep : Ev → Bool
  | .sleep => true
  | _ => false

/-- Whether the fallible per-paper step returned normally. -/
def stepOk (e : Except String SummRes) : Bool :=
  match e with
  | .ok _ => true
  | .error _ => false

/-- A block the listing loop skips for every `seen` state: no title
anchor, or a title anchor whose link matches no identifier. -/
def skippedBlock (b : Block) : Prop :=
  b.titleTag = none ∨
    ∃ tag link, b.titleTag = some tag ∧ tag.href = some link ∧
      extractArxivId link = none

/-- A concrete Jinja renderer (any pure function works). -/
def demoRender : Str → Str → List PaperR → Str := fun ts d _ => ts ++ d

/-- A concrete JSON serializer for records. -/
def demoDump : List PaperR → Str := fun _ => "[]".toList

/-- A concrete initial file system holding only the output template. -/
def demoFS : FS :=
  fun p => if p = outputTemplatePath then some "TPL".toList else none

/-- The file system after one `update_readme` run on `demoFS` for
date 2025-01-02 with no records. -/
def demoFS1 : FS :=
  writeFS
    (writeFS
      (writeFS demoFS readmePath ("TPL".toList ++ "2025-01-02".toList))
      (archiveStem "2025".toList "01".toList "2025-01-02".toList ++ ".md".toList)
      ("TPL".toList ++ "2025-01-02".toList))
    (archiveStem "2025".toList "01".toList "2025-01-02".toList ++ ".json".toList)
    "[]".toList

/-- Demo blocks: two listing blocks carrying the same identifier. -/
def demoBlocks : List Block :=
  [⟨some ⟨"T1".toList, some "/papers/2401.00001".toList⟩, []⟩,
   ⟨some ⟨"T1".toList, some "/papers/2401.00001".toList⟩, []⟩]

/-- The record the demo blocks produce. -/
def demoRec : PaperR :=
  ⟨"T1".toList, [], "2401.00001".toList,
    "https://arxiv.org/abs/2401.00001".toList, none, none⟩

/-- The singleton record sequence the demo blocks produce. -/
def demoOut : List PaperR := [demoRec]

/-! # Theorems -/

/-! ## Listing fetcher: dedup invariant (C2) -/

theorem blockStep_emit_id_not_seen (seen : List Str) (b : Block) (p : PaperR)
    (h : blockStep seen b = .emit p) : p.arxiv_id ∉ seen := by
  unfold blockStep at h
  cases hb : b.titleTag with
  | none => rw [hb] at h; exact absurd h (by simp)
  | some tag =>
    rw [hb] at h
    dsimp only at h
    cases hh : tag.href with
    | none => rw [hh] at h; exact absurd h (by simp)
    | some link =>
      rw [hh] at h
      dsimp only at h
      cases he : extractArxivId link with
      | none => rw [he] at h; exact absurd h (by simp)
      | some id =>
        rw [he] at h
        dsimp only at h
        by_cases hs : id ∈ seen
        · rw [if_pos hs] at h; exact absurd h (by simp)
        · rw [if_neg hs] at h
          injection h with h2
          subst h2
          simpa using hs

theorem listPapersAux_ids (bs : List Block) :
    ∀ seen out, listPapersAux seen bs = .ok out →
      (out.map PaperR.arxiv_id).Nodup ∧ ∀ p ∈ out, p.arxiv_id ∉ seen := by
  induction bs with
  | nil =>
    intro seen out h
    simp only [listPapersAux] at h
    cases h
    simp
  | cons b bs ih =>
    intro seen out h
    unfold listPapersAux at h
    cases hb : blockStep seen b with
    | raise e => rw [hb] at h; exact absurd h (by simp)
    | skip =>
      rw [hb] at h
      dsimp only at h
      exact ih seen out h
    | emit p =>
      rw [hb] at h
      dsimp only at h
      cases hrec : listPapersAux (p.arxiv_id :: seen) bs with
      | error e => rw [hrec] at h; exact absurd h (by simp [Except.map])
      | ok rest =>
        rw [hrec] at h
        simp only [Except.map, Except.ok.injEq] at h
        subst h
        obtain ⟨hnd, hmem⟩ := ih _ _ hrec
        have hp := blockStep_emit_id_not_seen seen b p hb
        refine ⟨?_, ?_⟩
        · simp only [List.map_cons, List.nodup_cons]
          refine ⟨?_, hnd⟩
          intro hin
          obtain ⟨q, hq, hqe⟩ := List.mem_map.mp hin
          exact hmem q hq (hqe ▸ List.mem_cons_self _ _)
        · intro q hq
          rcases List.mem_cons.mp hq with h1 | h1
          · exact h1 ▸ hp
          · intro hs
            exact hmem q h1 (List.mem_cons_of_mem _ hs)

/-- C2: for every listing input, the emitted paper records carry
pairwise-distinct identifiers — a block whose extracted identifier
was already seen is skipped, so the output identifiers form a
`Nodup` list. -/
theorem list_papers_nodup (blocks : List Block) (out : List PaperR)
    (h : list_papers blocks = .ok out) :
    (out.map PaperR.arxiv_id).Nodup :=
  (listPapersAux_ids blocks [] out h).1

/-- C2 witness (end-to-end scenario A): two blocks with the same
identifier `2401.00001` yield exactly one record, with distinct
identifiers overall. -/
theorem list_papers_nodup_witness :
    list_papers demoBlocks = Except.ok demoOut
    ∧ (demoOut.map PaperR.arxiv_id).Nodup :=
  ⟨by decide, list_papers_nodup demoBlocks demoOut (by decide)⟩

/-! ## Listing fetcher: bad blocks (C8) -/

theorem blockStep_skip_of_skipped (b : Block) (hb : skippedBlock b)
    (seen : List Str) : blockStep seen b = .skip := by
  rcases hb with h | ⟨tag, link, ht, hh, he⟩
  · unfold blockStep; rw [h]
  · unfold blockStep
    rw [ht]; dsimp only
    rw [hh]; dsimp only
    rw [he]

theorem listPapersAux_skip (b : Block) (hb : skippedBlock b) (post : List Block) :
    ∀ (pre : List Block) (seen : List Str),
      listPapersAux seen (pre ++ b :: post) = listPapersAux seen (pre ++ post) := by
  intro pre
  induction pre with
  | nil =>
    intro seen
    rw [List.nil_append, List.nil_append]
    have hstep : listPapersAux seen (b :: post)
        = match blockStep seen b with
          | .raise e => .error e
          | .skip => listPapersAux seen post
          | .emit p => (listPapersAux (p.arxiv_id :: seen) post).map (p :: ·) := rfl
    rw [hstep, blockStep_skip_of_skipped b hb seen]
  | cons b2 pre ih =>
    intro seen
    show listPapersAux seen (b2 :: (pre ++ b :: post))
      = listPapersAux seen (b2 :: (pre ++ post))
    unfold listPapersAux
    cases hb2 : blockStep seen b2 <;> dsimp only
    · exact ih seen
    · rw [ih _]

/-- C8 (amended): a block with no title anchor, or whose present link
matches no identifier pattern, contributes zero records and leaves
the rest of the fetch untouched — the run with the bad block equals
the run without it.  (The amendment: this holds only when the title
anchor, if present, carries its `href`; a title anchor without `href`
raises a `KeyError` instead, see the counterexample.) -/
theorem list_papers_skip_bad_block (b : Block) (hb : skippedBlock b)
    (pre post : List Block) :
    list_papers (pre ++ b :: post) = list_papers (pre ++ post) :=
  listPapersAux_skip b hb post pre []

/-- C8 witness: a titleless block dropped in front of the demo blocks
changes nothing. -/
theorem list_papers_skip_bad_block_witness :
    list_papers ([] ++ (⟨none, []⟩ : Block) :: demoBlocks)
      = list_papers ([] ++ demoBlocks) :=
  list_papers_skip_bad_block ⟨none, []⟩ (Or.inl rfl) [] demoBlocks

/-- C8 counterexample: a block whose title anchor lacks the `href`
attribute is a block from which no identifier can be extracted, yet
`title_tag["href"]` raises an uncaught `KeyError`, aborting the whole
fetch — the following well-formed block is never processed. -/
theorem list_papers_missing_href_cex :
    list_papers [⟨some ⟨"T".toList, none⟩, []⟩,
                 ⟨some ⟨"U".toList, some "/papers/2401.00002".toList⟩, []⟩]
      = Except.error "KeyError: href" := by decide

/-! ## Listing fetcher: title normalization (C9) -/

theorem mem_of_mem_pyStrip {c : Char} {s : Str} (h : c ∈ pyStrip s) :
    c ∈ s := by
  unfold pyStrip at h
  rw [List.mem_reverse] at h
  have h2 := (List.dropWhile_sublist _).subset h
  rw [List.mem_reverse] at h2
  exact (List.dropWhile_sublist _).subset h2

theorem splitNl_no_nl : ∀ (s : Str), ∀ piece ∈ splitNl s, '\n' ∉ piece := by
  intro s
  induction s with
  | nil =>
    intro piece hp
    simp [splitNl] at hp
    subst hp; simp
  | cons c rest ih =>
    intro piece hp
    unfold splitNl at hp
    by_cases hc : c = '\n'
    · rw [if_pos hc] at hp
      rcases List.mem_cons.mp hp with h | h
      · subst h; simp
      · exact ih piece h
    · rw [if_neg hc] at hp
      cases hrec : splitNl rest with
      | nil =>
        rw [hrec] at hp
        rcases List.mem_cons.mp hp with h | h
        · subst h
          intro hmem
          rcases List.mem_cons.mp hmem with h2 | h2
          · exact hc h2.symm
          · simp at h2
        · simp at h
      | cons p ps =>
        rw [hrec] at hp
        rcases List.mem_cons.mp hp with h | h
        · subst h
          intro hmem
          rcases List.mem_cons.mp hmem with h2 | h2
          · exact hc h2.symm
          · exact ih p (hrec ▸ List.mem_cons_self p ps) h2
        · exact ih piece (hrec ▸ List.mem_cons_of_mem p h)

theorem joinSpace_mem {c : Char} :
    ∀ (ps : List Str), c ∈ joinSpace ps → c = ' ' ∨ ∃ p ∈ ps, c ∈ p := by
  intro ps
  induction ps with
  | nil => intro h; simp [joinSpace] at h
  | cons x xs ih =>
    intro h
    cases xs with
    | nil =>
      simp only [joinSpace] at h
      exact Or.inr ⟨x, by simp, h⟩
    | cons y ys =>
      unfold joinSpace at h
      rcases List.mem_append.mp h with h1 | h1
      · exact Or.inr ⟨x, by simp, h1⟩
      · rcases List.mem_cons.mp h1 with h2 | h2
        · exact Or.inl h2
        · rcases ih h2 with h3 | ⟨p, hp, hcp⟩
          · exact Or.inl h3
          · exact Or.inr ⟨p, List.mem_cons_of_mem _ hp, hcp⟩

theorem normalizeTitle_no_nl (t : Str) : '\n' ∉ normalizeTitle t := by
  intro h
  unfold normalizeTitle at h
  rcases joinSpace_mem _ h with h1 | ⟨p, hp, hcp⟩
  · exact absurd h1 (by decide)
  · obtain ⟨q, hq, rfl⟩ := List.mem_map.mp hp
    exact splitNl_no_nl _ q hq (mem_of_mem_pyStrip hcp)

theorem blockStep_emit_title (seen : List Str) (b : Block) (p : PaperR)
    (h : blockStep seen b = .emit p) :
    ∃ tag, b.titleTag = some tag ∧ p.title = normalizeTitle tag.text := by
  unfold blockStep at h
  cases hb : b.titleTag with
  | none => rw [hb] at h; exact absurd h (by simp)
  | some tag =>
    rw [hb] at h
    dsimp only at h
    cases hh : tag.href with
    | none => rw [hh] at h; exact absurd h (by simp)
    | some link =>
      rw [hh] at h
      dsimp only at h
      cases he : extractArxivId link with
      | none => rw [he] at h; exact absurd h (by simp)
      | some id =>
        rw [he] at h
        dsimp only at h
        by_cases hs : id ∈ seen
        · rw [if_pos hs] at h; exact absurd h (by simp)
        · rw [if_neg hs] at h
          injection h with h2
          subst h2
          exact ⟨tag, rfl, rfl⟩

theorem listPapersAux_titles (bs : List Block) :
    ∀ seen out, listPapersAux seen bs = .ok out →
      ∀ p ∈ out, ∃ b ∈ bs, ∃ tag, b.titleTag = some tag ∧
        p.title = normalizeTitle tag.text := by
  induction bs with
  | nil =>
    intro seen out h
    simp only [listPapersAux] at h
    cases h; simp
  | cons b bs ih =>
    intro seen out h p hp
    unfold listPapersAux at h
    cases hb : blockStep seen b with
    | raise e => rw [hb] at h; exact absurd h (by simp)
    | skip =>
      rw [hb] at h; dsimp only at h
      obtain ⟨b2, hb2, r⟩ := ih seen out h p hp
      exact ⟨b2, List.mem_cons_of_mem _ hb2, r⟩
    | emit q =>
      rw [hb] at h; dsimp only at h
      cases hrec : listPapersAux (q.arxiv_id :: seen) bs with
      | error e => rw [hrec] at h; exact absurd h (by simp [Except.map])
      | ok rest =>
        rw [hrec] at h
        simp only [Except.map, Except.ok.injEq] at h
        subst h
        rcases List.mem_cons.mp hp with h1 | h1
        · subst h1
          obtain ⟨tag, ht, he⟩ := blockStep_emit_title seen b p hb
          exact ⟨b, List.mem_cons_self _ _, tag, ht, he⟩
        · obtain ⟨b2, hb2, r⟩ := ih _ _ hrec p h1
          exact ⟨b2, List.mem_cons_of_mem _ hb2, r⟩

/-- C9 (amended): every emitted record's title is exactly
`normalizeTitle` of its block's anchor text — `strip`, split on
newlines, strip each line, join with single spaces — and therefore
contains no newline.  (The amendment: runs of spaces are not
collapsed; the stored title can contain consecutive spaces, see the
counterexample.) -/
theorem title_normalization (blocks : List Block) (out : List PaperR)
    (h : list_papers blocks = .ok out) :
    ∀ p ∈ out,
      (∃ b ∈ blocks, ∃ tag, b.titleTag = some tag ∧
        p.title = normalizeTitle tag.text) ∧ '\n' ∉ p.title := by
  intro p hp
  obtain ⟨b, hb, tag, ht, he⟩ := listPapersAux_titles blocks [] out h p hp
  exact ⟨⟨b, hb, tag, ht, he⟩, he ▸ normalizeTitle_no_nl tag.text⟩

/-- C9 witness: the demo record's title contains no newline. -/
theorem title_normalization_witness : '\n' ∉ demoRec.title :=
  (title_normalization demoBlocks demoOut (by decide) demoRec (by decide)).2

/-- C9 counterexample: a title whose anchor text is `"a  b"` is
stored verbatim with its two consecutive spaces — the claimed
"no two consecutive space characters" is false (the same happens for
blank lines: `"a\n\nb"` becomes `"a  b"`). -/
theorem title_double_space_cex :
    list_papers [⟨some ⟨"a  b".toList, some "/papers/1234.5678".toList⟩, []⟩]
      = Except.ok [⟨"a  b".toList, [], "1234.5678".toList,
          "https://arxiv.org/abs/1234.5678".toList, none, none⟩]
    ∧ hasDoubleSpace "a  b".toList = true := by decide

/-! ## Orchestrator: failure isolation (C1) and pacing (C4) -/

/-- C1 (amended): the orchestrator never drops a record — the output
sequence relates pointwise to the input: a record whose processing
succeeded carries the merged `category`/`summary`, and a record whose
processing raised is present unchanged (its `category`/`summary` keys
stay absent rather than becoming empty strings); the raising paper's
title is logged with the exception and the loop continues. -/
theorem summarise_failure_isolation (step : PaperR → Except String SummRes)
    (papers : List PaperR) :
    List.Forall₂ (fun p q =>
        match step p with
        | .ok r => q = applySummary p r
        | .error _ => q = p) papers (summarise step papers).1
    ∧ ∀ p e, p ∈ papers → step p = .error e →
        Ev.warn p.title e ∈ (summarise step papers).2 := by
  induction papers with
  | nil => exact ⟨List.Forall₂.nil, by simp⟩
  | cons p ps ih =>
    obtain ⟨ih1, ih2⟩ := ih
    constructor
    · refine List.Forall₂.cons ?_ ih1
      show match step p with
        | .ok r => (summariseOne step p).1 = applySummary p r
        | .error _ => (summariseOne step p).1 = p
      cases h : step p <;> simp [summariseOne, h]
    · intro q e hq he
      show Ev.warn q.title e ∈ (summariseOne step p).2 ++ (summarise step ps).2
      rcases List.mem_cons.mp hq with h1 | h1
      · subst h1
        rw [List.mem_append]
        left
        simp [summariseOne, he]
      · rw [List.mem_append]
        right
        exact ih2 q e h1 he

/-- C1 witness: a concrete failing run keeps the record and logs. -/
theorem summarise_failure_isolation_witness :
    Ev.warn "T".toList "HTTP 404"
      ∈ (summarise (fun _ => Except.error "HTTP 404")
          [⟨"T".toList, [], "1".toList, "L".toList, none, none⟩]).2 :=
  (summarise_failure_isolation _ _).2
    ⟨"T".toList, [], "1".toList, "L".toList, none, none⟩
    "HTTP 404" (by decide) rfl

/-- C1 counterexample: a paper whose download raises stays in the
archived sequence, but with its `category` and `summary` keys absent
(`none`), not equal to the empty string — the record the claim
describes, with `category == ""` and `summary == ""`, is not what the
code archives. -/
theorem summarise_failed_paper_not_empty_fields_cex :
    (summarise (fun _ => Except.error "HTTP 404")
        [⟨"T".toList, [], "1".toList, "L".toList, none, none⟩]).1
      = [⟨"T".toList, [], "1".toList, "L".toList, none, none⟩]
    ∧ ¬ ((⟨"T".toList, [], "1".toList, "L".toList, none, none⟩ : PaperR).category
          = some []
        ∧ (⟨"T".toList, [], "1".toList, "L".toList, none, none⟩ : PaperR).summary
          = some []) := by decide

/-- C4 (amended): `time.sleep(30)` is the last statement inside the
`try` block, so the pacing delay runs exactly once per successfully
processed paper; a paper whose processing raises is skipped without
any delay. -/
theorem summarise_sleep_count (step : PaperR → Except String SummRes)
    (papers : List PaperR) :
    ((summarise step papers).2.filter isSleep).length
      = (papers.filter (fun p => stepOk (step p))).length := by
  induction papers with
  | nil => simp [summarise]
  | cons p ps ih =>
    show (((summariseOne step p).2 ++ (summarise step ps).2).filter isSleep).length
      = ((p :: ps).filter (fun p => stepOk (step p))).length
    rw [List.filter_append, List.length_append, ih]
    cases h : step p <;>
      simp [summariseOne, h, isSleep, stepOk, List.filter_cons, Nat.add_comm]

/-- C4 counterexample: a run with a single failing paper emits the
warning but no sleep event — the fixed pacing delay is not executed
when the paper's processing raises. -/
theorem summarise_sleep_on_failure_cex :
    (summarise (fun _ => Except.error "HTTP 404")
        [⟨"B".toList, [], "2".toList, "M".toList, none, none⟩]).2
      = [Ev.warn "B".toList "HTTP 404"]
    ∧ Ev.sleep ∉ (summarise (fun _ => Except.error "HTTP 404")
        [⟨"B".toList, [], "2".toList, "M".toList, none, none⟩]).2 := by decide

/-! ## Summarizer client response handling (C3) -/

/-- C3 (amended): the client's protection is at the JSON level, not
the schema level — a response text that fails `json.loads` yields the
logged fallback `{category: "", summary: ""}` without raising, and a
response text that parses as any JSON value is returned as-is, even
when it is not the two-field structure (the schema is only requested
from the service, never enforced client-side). -/
theorem summarise_paper_parse_fallback (text : Str) :
    (jsonLoads text = none → summarise_paper text = fallbackResult)
    ∧ ∀ v, jsonLoads text = some v → summarise_paper text = v := by
  constructor
  · intro h
    simp [summarise_paper, h]
  · intro v h
    simp [summarise_paper, h]

/-- C3 witness: `"not json"` fails to parse and yields the fallback;
a schema-conforming response is returned parsed. -/
theorem summarise_paper_parse_fallback_witness :
    summarise_paper "not json".toList = fallbackResult
    ∧ summarise_paper "\x7b\x22category\x22: \x22a\x22, \x22summary\x22: \x22b\x22\x7d".toList
      = Json.obj [("category".toList, Json.str "a".toList),
                  ("summary".toList, Json.str "b".toList)] :=
  ⟨(summarise_paper_parse_fallback _).1 rfl,
   (summarise_paper_parse_fallback _).2 _ rfl⟩

/-- C3 counterexample: the text `"[]"` does not parse as the
two-field {category, summary} structure, yet the client does not
return the fallback — it returns the parsed empty array unchanged
(which the orchestrator will then pass to `paper.update`). -/
theorem summarise_paper_nontwofield_cex :
    summarise_paper "[]".toList = Json.arr []
    ∧ isTwoFieldResponse (Json.arr []) = false
    ∧ summarise_paper "[]".toList ≠ fallbackResult := by
  refine ⟨rfl, rfl, ?_⟩
  intro h
  rw [show summarise_paper "[]".toList = Json.arr [] from rfl] at h
  simp [fallbackResult] at h

/-! ## PDF retriever (C5) -/

/-- C5: `download_arxiv` returns normally exactly when the response
status is 200, in which case the body is written at the save path; on
any other status it raises a `ValueError` naming the identifier and
writes nothing — the file system is returned untouched. -/
theorem download_arxiv_spec (id path : Str) (status : Nat) (content : Str)
    (fs : FS) :
    ((download_arxiv id path status content fs).2 = none ↔ status = 200)
    ∧ (status = 200 →
        (download_arxiv id path status content fs).1 = writeFS fs path content
        ∧ (download_arxiv id path status content fs).1 path = some content)
    ∧ (status ≠ 200 →
        (download_arxiv id path status content fs).1 = fs
        ∧ (download_arxiv id path status content fs).2
            = some ("Failed to download PDF for ".toList ++ id)) := by
  unfold download_arxiv
  by_cases h : status = 200 <;> simp [h, writeFS]

/-- C5 witness: a 200 response writes the body; a 404 response leaves
the file system unchanged. -/
theorem download_arxiv_spec_witness :
    (download_arxiv "1234.5678".toList "temp.pdf".toList 200 "PDF".toList
        (fun _ => none)).1 "temp.pdf".toList = some "PDF".toList
    ∧ (download_arxiv "1234.5678".toList "temp.pdf".toList 404 "X".toList
        (fun _ => none)).1 = (fun _ => none) :=
  ⟨((download_arxiv_spec _ _ 200 _ _).2.1 rfl).2,
   ((download_arxiv_spec _ _ 404 _ _).2.2 (by decide)).1⟩

/-! ## Notifier (C10) -/

/-- C10: the notifier's `main` handles gracefully only the absent
snapshot file (log and return, nothing sent); a present snapshot with
an empty record list raises an uncaught `IndexError` at `papers[0]`
and sends nothing; and when the first record has no `summary` key,
the message sent carries the literal string `"None"` as its summary
(escaping leaves it unchanged). -/
theorem send_to_telegram_main_spec :
    send_to_telegram_main none = .ok none
    ∧ send_to_telegram_main (some []) = .error "IndexError: list index out of range"
    ∧ ∀ (p : TPaper) (rest : List TPaper), p.summary = none →
        send_to_telegram_main (some (p :: rest))
          = .ok (some ("*".toList ++ escape_markdown p.title
              ++ "*\n[arXiv](".toList ++ escape_markdown p.link
              ++ ")\n\n".toList ++ "None".toList)) := by
  refine ⟨rfl, rfl, ?_⟩
  intro p rest h
  show Except.ok (some (send_text_summary p.title p.link
      (p.summary.getD "None".toList))) = _
  rw [h]
  show Except.ok (some (send_text_summary p.title p.link "None".toList)) = _
  unfold send_text_summary
  rw [show escape_markdown "None".toList = "None".toList from rfl]

/-- C10 witness: a concrete first record without a summary key gets
the literal `"None"`. -/
theorem send_to_telegram_main_spec_witness :
    send_to_telegram_main (some [⟨"T".toList, "L".toList, none⟩])
      = Except.ok (some ("*".toList ++ escape_markdown "T".toList
          ++ "*\n[arXiv](".toList ++ escape_markdown "L".toList
          ++ ")\n\n".toList ++ "None".toList)) :=
  send_to_telegram_main_spec.2.2 ⟨"T".toList, "L".toList, none⟩ [] rfl

/-! ## Archive writer: idempotence (C6) -/

theorem stem_ext_head (y m d ext : Str) :
    (archiveStem y m d ++ ext).head? = some 'a' := rfl

theorem readme_ne_stem (y m d ext : Str) :
    readmePath ≠ archiveStem y m d ++ ext := by
  intro h
  have h0 := congrArg List.head? h
  rw [stem_ext_head] at h0
  exact absurd h0 (by decide)

theorem template_ne_stem (y m d ext : Str) :
    outputTemplatePath ≠ archiveStem y m d ++ ext := by
  intro h
  have h0 := congrArg List.head? h
  rw [stem_ext_head] at h0
  exact absurd h0 (by decide)

theorem template_ne_readme : outputTemplatePath ≠ readmePath := by decide

/-- C6: the archive/digest writer of `src/summarisation.py` is
idempotent — a second run for the same date and records on the file
system the first run produced succeeds and leaves that file system
byte-identical (rendering depends only on the template text, the date
and the records, and the writer's own outputs never overwrite the
template it reads). -/
theorem update_readme_idempotent (render : Str → Str → List PaperR → Str)
    (dumpJson : List PaperR → Str) (today : Str) (papers : List PaperR)
    (fs fs1 : FS)
    (h : update_readme render dumpJson today papers fs = (fs1, none)) :
    update_readme render dumpJson today papers fs1 = (fs1, none) := by
  unfold update_readme at h
  cases hT : fs outputTemplatePath with
  | none =>
    rw [hT] at h
    exact absurd (congrArg Prod.snd h) (by simp)
  | some ts =>
    rw [hT] at h
    dsimp only at h
    rcases hsp : splitOnChar '-' today with _ | ⟨y, _ | ⟨m, _ | ⟨d, _ | ⟨x, xs⟩⟩⟩⟩ <;>
      rw [hsp] at h <;> dsimp only at h
    case nil => exact absurd (congrArg Prod.snd h) (by simp)
    case cons.nil => exact absurd (congrArg Prod.snd h) (by simp)
    case cons.cons.nil => exact absurd (congrArg Prod.snd h) (by simp)
    case cons.cons.cons.cons =>
      exact absurd (congrArg Prod.snd h) (by simp)
    case cons.cons.cons.nil =>
      have hfs1 : fs1
          = writeFS (writeFS (writeFS fs readmePath (render ts today papers))
              (archiveStem y m today ++ ".md".toList) (render ts today papers))
              (archiveStem y m today ++ ".json".toList) (dumpJson papers) :=
        (congrArg Prod.fst h).symm
      have hT1 : fs1 outputTemplatePath = some ts := by
        rw [hfs1]
        unfold writeFS
        rw [if_neg (template_ne_stem y m today ".json".toList),
            if_neg (template_ne_stem y m today ".md".toList),
            if_neg template_ne_readme]
        exact hT
      unfold update_readme
      rw [hT1]
      dsimp only
      rw [hsp]
      dsimp only
      rw [Prod.mk.injEq]
      refine ⟨?_, rfl⟩
      rw [hfs1]
      funext q
      simp only [writeFS]
      split_ifs <;> rfl

/-- C6 witness: a concrete second run reproduces the first run's file
system exactly. -/
theorem update_readme_idempotent_witness :
    update_readme demoRender demoDump "2025-01-02".toList [] demoFS1
      = (demoFS1, none) :=
  update_readme_idempotent demoRender demoDump "2025-01-02".toList []
    demoFS demoFS1 rfl

/-! ## Merging digest writer: merge law (C7) -/

theorem isPref_append_self (s t : Str) : isPref s (s ++ t) = true := by
  induction s with
  | nil => rfl
  | cons a as ih => simp [isPref, ih]

theorem isPref_nil_false {front : Str} (hf : front ≠ []) :
    isPref front [] = false := by
  cases front with
  | nil => exact absurd rfl hf
  | cons a as => rfl

theorem splitFirst_first_occ (sep b : Str) :
    ∀ (a : Str),
      (∀ i, i < a.length → isPref sep ((a ++ (sep ++ b)).drop i) = false) →
      splitFirst sep (a ++ (sep ++ b)) = a := by
  intro a
  induction a with
  | nil =>
    intro _
    rw [List.nil_append]
    cases hsb : sep ++ b with
    | nil => rfl
    | cons c r =>
      have hpref : isPref sep (c :: r) = true := by
        rw [← hsb]; exact isPref_append_self sep b
      unfold splitFirst
      simp [hpref]
  | cons x a ih =>
    intro h
    rw [List.cons_append]
    have h0 : isPref sep (x :: (a ++ (sep ++ b))) = false := by
      have hx := h 0 (by simp)
      rwa [List.cons_append, List.drop_zero] at hx
    have hrec := ih (fun i hi => by
      have hx := h (i + 1) (by simpa using Nat.succ_lt_succ hi)
      rwa [List.cons_append, List.drop_succ_cons] at hx)
    unfold splitFirst
    simp only [h0, Bool.false_eq_true, if_false]
    rw [hrec]

theorem replaceAllF_no_occ (old new : Str) :
    ∀ (fuel : Nat) (s : Str), s.length ≤ fuel →
      (∀ i, isPref old (s.drop i) = false) →
      replaceAllF old new fuel s = s := by
  intro fuel
  induction fuel with
  | zero =>
    intro s hl _
    cases s with
    | nil => rfl
    | cons c r => simp at hl
  | succ f ih =>
    intro s hl h
    cases s with
    | nil => rfl
    | cons c r =>
      have h0 : isPref old (c :: r) = false := by
        have hx := h 0
        rwa [List.drop_zero] at hx
      have hcond : ¬ (old ≠ [] ∧ isPref old (c :: r) = true) := by
        rintro ⟨_, hp⟩
        rw [h0] at hp
        exact absurd hp (by simp)
      unfold replaceAllF
      rw [if_neg hcond]
      have hr := ih r (by simpa using hl) (fun i => by
        have hx := h (i + 1)
        rwa [List.drop_succ_cons] at hx)
      rw [hr]

theorem replaceAll_prefix_once (front t : Str) (hf : front ≠ [])
    (h : ∀ i, 0 < i → isPref front ((front ++ t).drop i) = false) :
    replaceAll front [] (front ++ t) = t := by
  unfold replaceAll
  cases hfr : front with
  | nil => exact absurd hfr hf
  | cons f fr =>
    rw [List.cons_append, List.length_cons]
    have hpref : isPref (f :: fr) (f :: (fr ++ t)) = true := by
      rw [← List.cons_append]
      exact isPref_append_self (f :: fr) t
    unfold replaceAllF
    rw [if_pos ⟨List.cons_ne_nil f fr, hpref⟩]
    rw [List.nil_append]
    have hdrop : (fr ++ t).drop ((f :: fr).length - 1) = t := by
      rw [List.length_cons, Nat.add_sub_cancel]
      exact List.drop_left fr t
    rw [hdrop]
    refine replaceAllF_no_occ (f :: fr) [] (fr ++ t).length t ?_ ?_
    · rw [List.length_append]
      exact Nat.le_add_left t.length fr.length
    · intro i
      have hx := h ((fr.length + i) + 1) (Nat.succ_pos _)
      rw [hfr, List.cons_append, List.drop_succ_cons, List.drop_append] at hx
      exact hx

/-- C7: the merge law of the merging digest writer.  Suppose the
existing digest has the shape `intro1 ++ newContent d1 rs1 ++ tail0`
(a previously written entry for `d1` below some introductory text),
the boundary marker `"## Papers for"` first occurs where `d1`'s entry
begins (`h1`), and the front section `intro1 ++ "\n\n"` occurs only
at the very start (`h2` — both conditions hold for any sane digest
and formalize "both dates previously written at most once").  Then
writing `d2`'s records yields exactly: the refreshed intro (the intro
template with `d2`'s date substituted), then `d2`'s rendered entry,
then `d1`'s prior entry byte-for-byte, then whatever followed it. -/
theorem update_readme_merge_law (intro_template intro1 tail0 d1 d2 : Str)
    (rs1 rs2 : List PaperRow)
    (h1 : ∀ i, i < intro1.length + 2 →
      isPref papersMarker
        ((intro1 ++ newContent d1 rs1 ++ tail0).drop i) = false)
    (h2 : ∀ i, i < (intro1 ++ newContent d1 rs1 ++ tail0).length + 1 →
      0 < i →
      isPref (intro1 ++ "\n\n".toList)
        ((intro1 ++ newContent d1 rs1 ++ tail0).drop i) = false) :
    update_readme_merge intro_template (intro1 ++ newContent d1 rs1 ++ tail0)
        d2 rs2
      = introFor intro_template d2 ++ newContent d2 rs2
        ++ (newContent d1 rs1 ++ tail0) := by
  have hdec : ("\n\n## Papers for ".toList : Str)
      = "\n\n".toList ++ (papersMarker ++ [' ']) := by decide
  have hE : intro1 ++ newContent d1 rs1 ++ tail0
      = (intro1 ++ "\n\n".toList)
        ++ (papersMarker ++ ([' '] ++ (d1
          ++ ("\n\n| Title | Authors | Category | Summary |\n| ----- | ------- | -------- | ------- |\n".toList
          ++ ((rs1.map renderRow).flatten ++ tail0))))) := by
    simp [newContent, papersMarker, List.append_assoc]
  have hAlen : (intro1 ++ "\n\n".toList).length = intro1.length + 2 := by
    simp
  have hAne : (intro1 ++ "\n\n".toList) ≠ [] := by
    intro hA
    have hlen := congrArg List.length hA
    rw [hAlen] at hlen
    simp at hlen
  have h1s : ∀ i, i < (intro1 ++ "\n\n".toList).length →
      isPref papersMarker
        (((intro1 ++ "\n\n".toList)
          ++ (papersMarker ++ ([' '] ++ (d1
            ++ ("\n\n| Title | Authors | Category | Summary |\n| ----- | ------- | -------- | ------- |\n".toList
            ++ ((rs1.map renderRow).flatten ++ tail0)))))).drop i) = false := by
    intro i hi
    rw [← hE]
    exact h1 i (hAlen ▸ hi)
  have h2s : ∀ i, 0 < i →
      isPref (intro1 ++ "\n\n".toList)
        (((intro1 ++ "\n\n".toList)
          ++ (papersMarker ++ ([' '] ++ (d1
            ++ ("\n\n| Title | Authors | Category | Summary |\n| ----- | ------- | -------- | ------- |\n".toList
            ++ ((rs1.map renderRow).flatten ++ tail0)))))).drop i) = false := by
    intro i hpos
    rw [← hE]
    rcases le_or_lt i (intro1 ++ newContent d1 rs1 ++ tail0).length with hle | hgt
    · exact h2 i (by omega) hpos
    · rw [List.drop_eq_nil_of_le (Nat.le_of_lt hgt)]
      exact isPref_nil_false hAne
  simp only [update_readme_merge]
  rw [hE]
  rw [splitFirst_first_occ papersMarker _ (intro1 ++ "\n\n".toList) h1s]
  rw [replaceAll_prefix_once (intro1 ++ "\n\n".toList) _ hAne h2s]
  simp [newContent, papersMarker, List.append_assoc]

/-- C7 witness: a concrete digest holding the 2025-01-01 entry under
an intro is merged with the 2025-01-02 entry. -/
theorem update_readme_merge_law_witness :
    update_readme_merge "IN \x7bDATE\x7d\n".toList
        ("XQ".toList ++ newContent "2025-01-01".toList [] ++ [])
        "2025-01-02".toList []
      = introFor "IN \x7bDATE\x7d\n".toList "2025-01-02".toList
        ++ newContent "2025-01-02".toList []
        ++ (newContent "2025-01-01".toList [] ++ []) :=
  update_readme_merge_law "IN \x7bDATE\x7d\n".toList "XQ".toList []
    "2025-01-01".toList "2025-01-02".toList [] [] (by decide) (by decide)
